import Mathlib

/-!
The enforcement gate of `basculehttp` (`enforcer.go`).

A shallow embedding of `enforcer.decorate`, the three options and `NewEnforcer`.

The handler returned by `decorate` is embedded twice. `enforcer.decorate` is a
function from a downstream handler that is not nil, the response writer and the
request to the ordered list of effects the handler performs (log records, chain
evaluations, response writes, the call of the downstream handler), or to `none`
when the handler panics before performing any effect (the call of a nil
resolver). `enforcer.handler` is the same body as a transition of the state the
handler runs in (the enforcer its closure points to, the effects so far, the
panic flag), for a downstream handler that may be nil;
`handler_some_eq_decorate` relates the two.

Everything the gate consumes from other packages is a field of
`Collaborators`; the types those packages own are the fields of `Sig`.
-/

namespace basculehttp

/-- The types owned by the packages the gate is a client of. `Error`, `Logger`,
`Handler`, `ResponseWriter` and `Request` stand for non-nil values; a nil
`error` or a nil `bascule.Logger` is `none` where the source tests for it. -/
structure Sig where
  /-- The type `*http.Request`. -/
  Request : Type
  /-- The type `context.Context`. -/
  Context : Type
  /-- The type `bascule.Token`. -/
  Token : Type
  /-- The non-nil values of type `error`. -/
  Error : Type
  /-- The type `bascule.Validator`, one member of a chain. -/
  Validator : Type
  /-- The non-nil values of type `bascule.Logger`. -/
  Logger : Type
  /-- The elements of the slice `emperror.Context(err)`. -/
  Keyval : Type
  /-- The values of type `http.Handler` that are not nil; where a nil downstream
  handler is considered (`enforcer.handler`), it is `none`. -/
  Handler : Type
  /-- The type `http.ResponseWriter`. -/
  ResponseWriter : Type

/-- The type `bascule.Authorization`, a string naming the scheme of a credential. -/
abbrev Authorization := String

/-- The type `NotFoundBehavior`, declared `int` in the source. Only equality
with the two constants is ever computed on it. -/
abbrev NotFoundBehavior := Int

/-- The constant `Forbid`, the first of the `iota` block. -/
def Forbid : NotFoundBehavior := 0

/-- The constant `Allow`, the second of the `iota` block. -/
def Allow : NotFoundBehavior := 1

/-- The constant `http.StatusForbidden`. -/
def StatusForbidden : Nat := 403

/-- The constant `http.StatusUnauthorized`. -/
def StatusUnauthorized : Nat := 401

/-- The type `bascule.Validators`, a slice of validators; the nil slice is `[]`. -/
abbrev Validators (S : Sig) := List S.Validator

/-- The two fields of `bascule.Authentication` the gate reads. -/
structure Authentication (S : Sig) where
  /-- The scheme of the credential. -/
  Authorization : Authorization
  /-- The token of the credential. -/
  Token : S.Token

/-- One element of the key/value list handed to `logger.Log`. -/
inductive LogVal (S : Sig) where
  /-- The value `level.Key()`. -/
  | levelKey : LogVal S
  /-- The value `level.ErrorValue()`. -/
  | errorValue : LogVal S
  /-- The value `level.DebugValue()`. -/
  | debugValue : LogVal S
  /-- The value `bascule.ErrorKey`. -/
  | ErrorKey : LogVal S
  /-- A string literal of the source. -/
  | str (s : String) : LogVal S
  /-- A value of type `bascule.Validators`. -/
  | rules (v : Validators S) : LogVal S
  /-- A value of type `bascule.Authorization`. -/
  | authorization (a : Authorization) : LogVal S
  /-- A value of type `NotFoundBehavior`. -/
  | behavior (b : NotFoundBehavior) : LogVal S
  /-- A value of type `[]string`. -/
  | errs (l : List String) : LogVal S
  /-- An element of `emperror.Context(err)`. -/
  | context (k : S.Keyval) : LogVal S

/-- One observable action of the handler. -/
inductive Effect (S : Sig) where
  /-- The call `logger.Log(keyvals...)`. -/
  | log (logger : S.Logger) (keyvals : List (LogVal S)) : Effect S
  /-- The call `rules.Check(ctx, token)`. -/
  | check (rules : Validators S) (ctx : S.Context) (token : S.Token) : Effect S
  /-- A status line written to the response. -/
  | writeHeader (response : S.ResponseWriter) (statusCode : Nat) : Effect S
  /-- A body written to the response. -/
  | write (response : S.ResponseWriter) (body : String) : Effect S
  /-- The call `next.ServeHTTP(response, request)`. -/
  | serveHTTP (next : S.Handler) (response : S.ResponseWriter) (request : S.Request) : Effect S

/-- What the gate calls in other packages. Each call is taken to return. -/
structure Collaborators (S : Sig) where
  /-- The method `request.Context()`. -/
  requestContext : S.Request → S.Context
  /-- The function `bascule.FromContext`; `none` is `ok = false`. -/
  FromContext : S.Context → Option (Authentication S)
  /-- The method `bascule.Validators.Check`; `none` is the nil error. -/
  Check : Validators S → S.Context → S.Token → Option S.Error
  /-- The method `err.Error()`. -/
  errorString : S.Error → String
  /-- The type assertion `err.(bascule.Errors)`; `none` is `ok = false`. -/
  asErrors : S.Error → Option (List S.Error)
  /-- The function `emperror.Context`. -/
  emperrorContext : S.Error → List S.Keyval
  /-- The function `bascule.GetDefaultLoggerFunc`, the process-wide default
  resolver. -/
  GetDefaultLoggerFunc : S.Context → S.Logger
  /-- The encoding of an error as a response body chosen by the response
  writing collaborator. -/
  serialize : S.Error → String

/-- Modelled from the spec: the function `WriteResponse` of this package, which
is not in `enforcer.go`. The spec gives it as
`writeResponse(responseWriter, statusCode, error)`, which "serializes a
rejection with its status code and error payload": it writes the status code
and then the serialized error as the body. -/
def WriteResponse {S : Sig} (c : Collaborators S) (response : S.ResponseWriter)
    (statusCode : Nat) (err : S.Error) : List (Effect S) :=
  [Effect.writeHeader response statusCode, Effect.write response (c.serialize err)]

/-- The struct `enforcer`. The map `rules` is a finite partial function from
schemes to chains (`none`: the key is absent). The field `getLogger` has a
function type, whose nil value is `none`; a resolver returns `none` for a nil
logger. -/
structure enforcer (S : Sig) where
  /-- The fallback setting. -/
  notFoundBehavior : NotFoundBehavior
  /-- The policy table. -/
  rules : Authorization → Option (Validators S)
  /-- The logger resolver. -/
  getLogger : Option (S.Context → Option S.Logger)

/-- The slice `errs` built on the failure branch of `decorate`: the message of
`err`, then, when `err` is a `bascule.Errors`, the message of each of its
members, appended in order by the loop. -/
def decorate.errs {S : Sig} (c : Collaborators S) (err : S.Error) : List String :=
  let errs := [c.errorString err]
  match c.asErrors err with
  | some es => es.foldl (fun errs e => errs ++ [c.errorString e]) errs
  | none => errs

/-- The variable `logger` of the handler: the logger the resolver returns for
the context, or the one `bascule.GetDefaultLoggerFunc` returns when that is nil. -/
def decorate.logger {S : Sig} (c : Collaborators S)
    (getLogger : S.Context → Option S.Logger) (ctx : S.Context) : S.Logger :=
  match getLogger ctx with
  | some logger => logger
  | none => c.GetDefaultLoggerFunc ctx

/-- The last two statements of the handler, reached when no branch returned:
the debug record and the call of the downstream handler. -/
def decorate.accept {S : Sig} (logger : S.Logger) (next : S.Handler)
    (response : S.ResponseWriter) (request : S.Request) : List (Effect S) :=
  [Effect.log logger [LogVal.levelKey, LogVal.debugValue, LogVal.str "msg",
      LogVal.str "authentication accepted by enforcer"],
   Effect.serveHTTP next response request]

/-- The handler `e.decorate(next)` applied to `response` and `request`. The
result is `none` when `e.getLogger` is nil, since the first statement that
uses it calls it; otherwise it is the list of effects in program order. -/
def enforcer.decorate {S : Sig} (c : Collaborators S) (e : enforcer S) (next : S.Handler)
    (response : S.ResponseWriter) (request : S.Request) : Option (List (Effect S)) :=
  let ctx := c.requestContext request
  match e.getLogger with
  | none => none
  | some getLogger =>
    let logger := decorate.logger c getLogger ctx
    match c.FromContext ctx with
    | none =>
      some [Effect.log logger [LogVal.levelKey, LogVal.errorValue, LogVal.ErrorKey,
              LogVal.str "no authentication found"],
            Effect.writeHeader response StatusForbidden]
    | some auth =>
      match e.rules auth.Authorization with
      | none =>
        let notFound : Effect S :=
          Effect.log logger [LogVal.levelKey, LogVal.errorValue,
            LogVal.ErrorKey, LogVal.str "no rules found for authorization",
            LogVal.str "rules", LogVal.rules [],
            LogVal.str "authorization", LogVal.authorization auth.Authorization,
            LogVal.str "behavior", LogVal.behavior e.notFoundBehavior]
        if e.notFoundBehavior = Forbid then
          some [notFound, Effect.writeHeader response StatusForbidden]
        else if e.notFoundBehavior = Allow then
          some (notFound :: decorate.accept logger next response request)
        else
          some [notFound, Effect.writeHeader response StatusForbidden]
      | some rules =>
        match c.Check rules ctx auth.Token with
        | some err =>
          some ([Effect.check rules ctx auth.Token,
                 Effect.log logger
                   ((c.emperrorContext err).map LogVal.context ++
                     [LogVal.levelKey, LogVal.errorValue, LogVal.ErrorKey,
                      LogVal.errs (decorate.errs c err)])]
                ++ WriteResponse c response StatusUnauthorized err)
        | none =>
          some (Effect.check rules ctx auth.Token ::
                decorate.accept logger next response request)

/-- The type `EOption`, a function that updates the enforcer under construction. -/
abbrev EOption (S : Sig) := enforcer S → enforcer S

/-- The option `WithNotFoundBehavior`. -/
def WithNotFoundBehavior {S : Sig} (behavior : NotFoundBehavior) : EOption S :=
  fun e => { e with notFoundBehavior := behavior }

/-- The option `WithRules`: the map assignment `e.rules[key] = v`. -/
def WithRules {S : Sig} (key : Authorization) (v : Validators S) : EOption S :=
  fun e => { e with rules := fun k => if k = key then some v else e.rules k }

/-- The option `WithELogger`; a nil `getLogger` is `none`. -/
def WithELogger {S : Sig} (getLogger : Option (S.Context → Option S.Logger)) : EOption S :=
  fun e => { e with getLogger := getLogger }

/-- The enforcer `e` of `NewEnforcer` after its loop: the struct literal (zero
fallback, empty map, default resolver) with the options applied in order. -/
def NewEnforcer.e {S : Sig} (c : Collaborators S) (options : List (EOption S)) : enforcer S :=
  options.foldl (fun e o => o e)
    { notFoundBehavior := 0
      rules := fun _ => none
      getLogger := some (fun ctx => some (c.GetDefaultLoggerFunc ctx)) }

/-- The function `NewEnforcer`: it returns the method value `e.decorate`. -/
def NewEnforcer {S : Sig} (c : Collaborators S) (options : List (EOption S)) :
    S.Handler → S.ResponseWriter → S.Request → Option (List (Effect S)) :=
  (NewEnforcer.e c options).decorate c

/-! Observations on the list of effects. -/

/-- The status codes written to the response, in order. -/
def statusCodes {S : Sig} (t : List (Effect S)) : List Nat :=
  t.filterMap fun
    | Effect.writeHeader _ statusCode => some statusCode
    | _ => none

/-- The bodies written to the response, in order. -/
def bodies {S : Sig} (t : List (Effect S)) : List String :=
  t.filterMap fun
    | Effect.write _ body => some body
    | _ => none

/-- The chain evaluations, in order: the chain, the context and the token of
each call of `Check`. -/
def checks {S : Sig} (t : List (Effect S)) : List (Validators S × S.Context × S.Token) :=
  t.filterMap fun
    | Effect.check rules ctx token => some (rules, ctx, token)
    | _ => none

/-- The calls of a downstream handler, in order, each with its arguments. -/
def forwards {S : Sig} (t : List (Effect S)) :
    List (S.Handler × S.ResponseWriter × S.Request) :=
  t.filterMap fun
    | Effect.serveHTTP next response request => some (next, response, request)
    | _ => none

/-- The key/value lists of the diagnostic events, in order. -/
def events {S : Sig} (t : List (Effect S)) : List (List (LogVal S)) :=
  t.filterMap fun
    | Effect.log _ keyvals => some keyvals
    | _ => none

/-- The loggers the diagnostic events were written to, in order. -/
def sinks {S : Sig} (t : List (Effect S)) : List S.Logger :=
  t.filterMap fun
    | Effect.log logger _ => some logger
    | _ => none

/-- The level of a diagnostic event. -/
inductive Level where
  /-- The level of `level.ErrorValue()`. -/
  | error : Level
  /-- The level of `level.DebugValue()`. -/
  | debug : Level
  deriving DecidableEq, Repr

/-- The level a key/value list announces: the level value that follows the
first `level.Key()` in it, if there is one. -/
def levelOf {S : Sig} : List (LogVal S) → Option Level
  | LogVal.levelKey :: LogVal.errorValue :: _ => some Level.error
  | LogVal.levelKey :: LogVal.debugValue :: _ => some Level.debug
  | LogVal.levelKey :: _ => none
  | _ :: rest => levelOf rest
  | [] => none

/-- The levels of the diagnostic events of a list of effects, in order. -/
def levels {S : Sig} (t : List (Effect S)) : List (Option Level) :=
  (events t).map levelOf

/-! A concrete instance, for evaluating the definitions. -/

/-- A concrete signature: a context is its optional credential (scheme and
token) together with one more value; a validator is a token it refuses; an
error is its message together with the messages of its members. -/
abbrev demoSig : Sig where
  Request := Option (String × String) × String
  Context := Option (String × String) × String
  Token := String
  Error := String × List String
  Validator := String
  Logger := String
  Keyval := String
  Handler := String
  ResponseWriter := String

/-- Concrete collaborators over `demoSig`: a chain fails with the message
`expired` when it holds the token, a context whose extra value is `traced`
carries the logger `ctxlog`, and an error is serialized as its message. -/
def demo : Collaborators demoSig where
  requestContext := fun request => request
  FromContext := fun ctx => ctx.1.map fun p => { Authorization := p.1, Token := p.2 }
  Check := fun rules _ token => if token ∈ rules then some ("expired", []) else none
  errorString := fun err => err.1
  asErrors := fun err => if err.2 = [] then none else some (err.2.map fun m => (m, []))
  emperrorContext := fun _ => []
  GetDefaultLoggerFunc := fun _ => "default"
  serialize := fun err => err.1

/-- A resolver over `demoSig`: the logger `ctxlog` for a context marked
`traced`, no logger otherwise. -/
def demoResolver : demoSig.Context → Option demoSig.Logger :=
  fun ctx => if ctx.2 = "traced" then some "ctxlog" else none

/-- Concrete collaborators over `demoSig` whose chains fail with an aggregate:
a chain that holds the token returns an error with two members and a context
of two values. -/
def demoAgg : Collaborators demoSig where
  requestContext := fun request => request
  FromContext := fun ctx => ctx.1.map fun p => { Authorization := p.1, Token := p.2 }
  Check := fun rules _ token =>
    if token ∈ rules then some ("multiple errors", ["expired", "wrong audience"]) else none
  errorString := fun err => err.1
  asErrors := fun err => if err.2 = [] then none else some (err.2.map fun m => (m, []))
  emperrorContext := fun _ => ["validator", "chain"]
  GetDefaultLoggerFunc := fun _ => "default"
  serialize := fun err => err.1

/-! The decision and the handler as a transition on the enforcer. -/

/-- The enforcement decision a request ends in. -/
inductive Decision where
  /-- The request is handed to the downstream handler. -/
  | passThrough : Decision
  /-- The request is answered with a status by the gate. -/
  | reject (statusCode : Nat) : Decision
  deriving DecidableEq, Repr

/-- The decision a list of effects shows: pass-through when the downstream
handler was called once and no status was written, the rejection with the
status written when one status was written and the downstream handler was not
called, none otherwise. -/
def decision {S : Sig} (t : List (Effect S)) : Option Decision :=
  match forwards t, statusCodes t with
  | [_], [] => some Decision.passThrough
  | [], [statusCode] => some (Decision.reject statusCode)
  | _, _ => none

/-- The state the handler runs in: the enforcer its closure points to, the
effects performed so far, and whether the handler has panicked. -/
structure HandlerState (S : Sig) where
  /-- The enforcer `e` captured by the closure. -/
  e : enforcer S
  /-- The effects performed so far, in program order. -/
  effects : List (Effect S)
  /-- Whether a statement of the handler has panicked. -/
  panicked : Bool

/-- A call that goes out of the handler (to the logger, to the chain, to the
response writer, to the downstream handler): the effects are recorded. None of
these calls is given `e` or its map. -/
def HandlerState.perform {S : Sig} (s : HandlerState S) (effs : List (Effect S)) :
    HandlerState S :=
  { s with effects := s.effects ++ effs }

/-- A call through a nil function or a nil interface value: the handler stops
in a panic. -/
def HandlerState.fault {S : Sig} (s : HandlerState S) : HandlerState S :=
  { s with panicked := true }

/-- The last two statements of the handler, for a downstream handler that may
be nil (`none`): the debug record, then the call `next.ServeHTTP`, which
panics on a nil `next`. -/
def decorate.forward {S : Sig} (logger : S.Logger) (next : Option S.Handler)
    (response : S.ResponseWriter) (request : S.Request) (s : HandlerState S) :
    HandlerState S :=
  let s := s.perform [Effect.log logger [LogVal.levelKey, LogVal.debugValue, LogVal.str "msg",
    LogVal.str "authentication accepted by enforcer"]]
  match next with
  | none => s.fault
  | some next => s.perform [Effect.serveHTTP next response request]

/-- The body of the handler returned by `e.decorate(next)`, statement by
statement, as a transition of the state it runs in. Every read of a field of
the enforcer is a read of the current state; `next` may be nil (`none`). -/
def enforcer.handler {S : Sig} (c : Collaborators S) (next : Option S.Handler)
    (response : S.ResponseWriter) (request : S.Request) (s : HandlerState S) :
    HandlerState S :=
  let ctx := c.requestContext request
  match s.e.getLogger with
  | none => s.fault
  | some getLogger =>
    let logger := decorate.logger c getLogger ctx
    match c.FromContext ctx with
    | none =>
      let s := s.perform [Effect.log logger [LogVal.levelKey, LogVal.errorValue,
        LogVal.ErrorKey, LogVal.str "no authentication found"]]
      s.perform [Effect.writeHeader response StatusForbidden]
    | some auth =>
      match s.e.rules auth.Authorization with
      | none =>
        let s := s.perform [Effect.log logger [LogVal.levelKey, LogVal.errorValue,
          LogVal.ErrorKey, LogVal.str "no rules found for authorization",
          LogVal.str "rules", LogVal.rules [],
          LogVal.str "authorization", LogVal.authorization auth.Authorization,
          LogVal.str "behavior", LogVal.behavior s.e.notFoundBehavior]]
        if s.e.notFoundBehavior = Forbid then
          s.perform [Effect.writeHeader response StatusForbidden]
        else if s.e.notFoundBehavior = Allow then
          decorate.forward logger next response request s
        else
          s.perform [Effect.writeHeader response StatusForbidden]
      | some rules =>
        let s := s.perform [Effect.check rules ctx auth.Token]
        match c.Check rules ctx auth.Token with
        | some err =>
          let s := s.perform [Effect.log logger
            ((c.emperrorContext err).map LogVal.context ++
              [LogVal.levelKey, LogVal.errorValue, LogVal.ErrorKey,
               LogVal.errs (decorate.errs c err)])]
          s.perform (WriteResponse c response StatusUnauthorized err)
        | none => decorate.forward logger next response request s

/-! Theorems. -/

/-- The level announced by the record of a failed chain is found behind the
context values of the error. -/
theorem levelOf_context_append {S : Sig} (ks : List S.Keyval) (rest : List (LogVal S)) :
    levelOf (ks.map LogVal.context ++ rest) = levelOf rest := by
  induction ks with
  | nil => rfl
  | cons k ks ih => simpa [levelOf] using ih

/-- The loop of `NewEnforcer` over a concatenation of option lists. -/
theorem foldl_options_append {S : Sig} (e : enforcer S) (pre post : List (EOption S)) :
    (pre ++ post).foldl (fun e o => o e) e =
      post.foldl (fun e o => o e) (pre.foldl (fun e o => o e) e) := by
  simp [List.foldl_append]

/-- A property of the enforcer that every option of a list preserves holds
after the loop of `NewEnforcer` if it held before. -/
theorem foldl_options_invariant {S : Sig} (P : enforcer S → Prop)
    (options : List (EOption S)) (hstep : ∀ o ∈ options, ∀ e, P e → P (o e))
    (e : enforcer S) (he : P e) : P (options.foldl (fun e o => o e) e) := by
  induction options generalizing e with
  | nil => exact he
  | cons o os ih =>
    exact ih (fun o' ho' => hstep o' (List.mem_cons_of_mem _ ho')) (o e)
      (hstep o (List.mem_cons_self _ _) e he)

/-- The handler reads the three fields of the enforcer only. -/
theorem decorate_of_getLogger {S : Sig} (c : Collaborators S) (e : enforcer S)
    (getLogger : S.Context → Option S.Logger) (hg : e.getLogger = some getLogger)
    (next : S.Handler) (response : S.ResponseWriter) (request : S.Request) :
    enforcer.decorate c e next response request =
      enforcer.decorate c
        { notFoundBehavior := e.notFoundBehavior, rules := e.rules,
          getLogger := some getLogger } next response request := by
  cases e
  simp_all

/-- With a resolver that is not nil, a credential whose scheme is a key of the
table makes the handler evaluate the chain stored under that key and no other. -/
theorem decorate_checks_of_registered {S : Sig} (c : Collaborators S) (e : enforcer S)
    (getLogger : S.Context → Option S.Logger) (hg : e.getLogger = some getLogger)
    (next : S.Handler) (response : S.ResponseWriter) (request : S.Request)
    (auth : Authentication S) (chain : Validators S)
    (hauth : c.FromContext (c.requestContext request) = some auth)
    (hrules : e.rules auth.Authorization = some chain) :
    ∃ t, enforcer.decorate c e next response request = some t ∧
      checks t = [(chain, c.requestContext request, auth.Token)] := by
  cases hcheck : c.Check chain (c.requestContext request) auth.Token <;>
    simp [enforcer.decorate, hg, hauth, hrules, hcheck, checks, decorate.accept,
      WriteResponse]

/-- C1, amended: whatever the policy table and the fallback setting, on a gate
whose resolver is not nil a request whose context carries no credential is
rejected: the only status written is 403, no body is written, no chain is
evaluated and the downstream handler is not called. -/
theorem C1_no_credential_rejected {S : Sig} (c : Collaborators S)
    (rules : Authorization → Option (Validators S)) (notFoundBehavior : NotFoundBehavior)
    (getLogger : S.Context → Option S.Logger)
    (next : S.Handler) (response : S.ResponseWriter) (request : S.Request)
    (hauth : c.FromContext (c.requestContext request) = none) :
    ∃ t, enforcer.decorate c
          { notFoundBehavior := notFoundBehavior, rules := rules, getLogger := some getLogger }
          next response request = some t ∧
      statusCodes t = [403] ∧ bodies t = [] ∧ checks t = [] ∧ forwards t = [] := by
  simp [enforcer.decorate, hauth, statusCodes, bodies, checks, forwards, StatusForbidden]

/-- C1, amended, at a concrete input: a table with a rule, the fallback `Allow`, and a
request without a credential. -/
theorem C1_no_credential_rejected_witness :
    demo.FromContext (demo.requestContext (none, "")) = none ∧
    ∃ t, enforcer.decorate demo
          { notFoundBehavior := Allow,
            rules := fun k => if k = "Bearer" then some ["bad"] else none,
            getLogger := some demoResolver }
          "next" "w" (none, "") = some t ∧
      statusCodes t = [403] ∧ bodies t = [] ∧ checks t = [] ∧ forwards t = [] :=
  ⟨rfl, C1_no_credential_rejected demo _ Allow demoResolver "next" "w" (none, "") rfl⟩

/-- C3: when the scheme of the credential is a key of the policy table and the
evaluation of its chain returns the error `err`, the only status written is
401, the only body written is the serialization of that same `err` by the
response writer, and the downstream handler is not called; with a serializer
whose output contains the message of the error it serializes, the body
contains the message of `err`. -/
theorem C3_failed_chain_rejected {S : Sig} (c : Collaborators S)
    (rules : Authorization → Option (Validators S)) (notFoundBehavior : NotFoundBehavior)
    (getLogger : S.Context → Option S.Logger)
    (next : S.Handler) (response : S.ResponseWriter) (request : S.Request)
    (auth : Authentication S) (chain : Validators S) (err : S.Error)
    (hauth : c.FromContext (c.requestContext request) = some auth)
    (hrules : rules auth.Authorization = some chain)
    (hcheck : c.Check chain (c.requestContext request) auth.Token = some err) :
    ∃ t, enforcer.decorate c
          { notFoundBehavior := notFoundBehavior, rules := rules, getLogger := some getLogger }
          next response request = some t ∧
      statusCodes t = [401] ∧ bodies t = [c.serialize err] ∧ forwards t = [] ∧
      ((∀ e, (c.errorString e).data <:+: (c.serialize e).data) →
        ∀ body ∈ bodies t, (c.errorString err).data <:+: body.data) := by
  refine ⟨_, by simp [enforcer.decorate, hauth, hrules, hcheck]; rfl, ?_, ?_, ?_, ?_⟩ <;>
    simp [statusCodes, bodies, forwards, WriteResponse, StatusUnauthorized]
  intro hser
  exact hser err

/-- C3 at a concrete input: the chain of `Bearer` refuses the token `bad` with
the message `expired`. -/
theorem C3_failed_chain_rejected_witness :
    demo.FromContext (demo.requestContext (some ("Bearer", "bad"), "")) =
        some { Authorization := "Bearer", Token := "bad" } ∧
    (fun k => if k = "Bearer" then some ["bad"] else none :
        Authorization → Option (Validators demoSig)) "Bearer" = some ["bad"] ∧
    demo.Check ["bad"] (demo.requestContext (some ("Bearer", "bad"), "")) "bad" =
        some ("expired", []) ∧
    ∃ t, enforcer.decorate demo
          { notFoundBehavior := Allow,
            rules := fun k => if k = "Bearer" then some ["bad"] else none,
            getLogger := some demoResolver }
          "next" "w" (some ("Bearer", "bad"), "") = some t ∧
      statusCodes t = [401] ∧ bodies t = ["expired"] ∧ forwards t = [] ∧
      ∀ body ∈ bodies t, "expired".data <:+: body.data :=
  ⟨rfl, rfl, rfl,
    (C3_failed_chain_rejected demo _ Allow demoResolver "next" "w"
      (some ("Bearer", "bad"), "") { Authorization := "Bearer", Token := "bad" } ["bad"]
      ("expired", []) rfl rfl rfl).elim fun t h =>
        ⟨t, h.1, h.2.1, h.2.2.1, h.2.2.2.1, h.2.2.2.2 fun _ => List.infix_refl _⟩⟩

/-- C4, amended: on a gate whose resolver is not nil, when the scheme of the
credential is not a key of the policy table and the fallback setting is
`Forbid`, the only status written is 403, no body is
written, no chain is evaluated and the downstream handler is not called. -/
theorem C4_unregistered_forbid_rejected {S : Sig} (c : Collaborators S)
    (rules : Authorization → Option (Validators S))
    (getLogger : S.Context → Option S.Logger)
    (next : S.Handler) (response : S.ResponseWriter) (request : S.Request)
    (auth : Authentication S)
    (hauth : c.FromContext (c.requestContext request) = some auth)
    (hrules : rules auth.Authorization = none) :
    ∃ t, enforcer.decorate c
          { notFoundBehavior := Forbid, rules := rules, getLogger := some getLogger }
          next response request = some t ∧
      statusCodes t = [403] ∧ bodies t = [] ∧ checks t = [] ∧ forwards t = [] := by
  simp [enforcer.decorate, hauth, hrules, statusCodes, bodies, checks, forwards,
    StatusForbidden]

/-- C4, amended, at a concrete input: the table holds `Bearer` only and the credential
has the scheme `Basic`. -/
theorem C4_unregistered_forbid_rejected_witness :
    demo.FromContext (demo.requestContext (some ("Basic", "good"), "")) =
        some { Authorization := "Basic", Token := "good" } ∧
    (fun k => if k = "Bearer" then some ["bad"] else none :
        Authorization → Option (Validators demoSig)) "Basic" = none ∧
    ∃ t, enforcer.decorate demo
          { notFoundBehavior := Forbid,
            rules := fun k => if k = "Bearer" then some ["bad"] else none,
            getLogger := some demoResolver }
          "next" "w" (some ("Basic", "good"), "") = some t ∧
      statusCodes t = [403] ∧ bodies t = [] ∧ checks t = [] ∧ forwards t = [] :=
  ⟨rfl, rfl, C4_unregistered_forbid_rejected demo _ demoResolver "next" "w"
    (some ("Basic", "good"), "") { Authorization := "Basic", Token := "good" } rfl rfl⟩

/-- C8: when the option list holds `WithRules(key, v)` and no option after it
is a `WithRules` for the same key (whatever precedes it, other `WithRules` for
`key` included), the table built by `NewEnforcer` holds exactly `v` under
`key`; and when the resolver built is not nil, a request whose credential has
the scheme `key` gets `v` evaluated, once, and no other chain. -/
theorem C8_last_rules_win {S : Sig} (c : Collaborators S)
    (pre post : List (EOption S)) (key : Authorization) (v : Validators S)
    (next : S.Handler) (response : S.ResponseWriter) (request : S.Request)
    (auth : Authentication S)
    (hpost : ∀ o ∈ post, (∃ b, o = WithNotFoundBehavior b) ∨ (∃ g, o = WithELogger g) ∨
      (∃ k w, k ≠ key ∧ o = WithRules k w))
    (hauth : c.FromContext (c.requestContext request) = some auth)
    (hkey : auth.Authorization = key) :
    (NewEnforcer.e c (pre ++ WithRules key v :: post)).rules key = some v ∧
    ((NewEnforcer.e c (pre ++ WithRules key v :: post)).getLogger ≠ none →
      ∃ t, NewEnforcer c (pre ++ WithRules key v :: post) next response request = some t ∧
        checks t = [(v, c.requestContext request, auth.Token)]) := by
  have hrules : (NewEnforcer.e c (pre ++ WithRules key v :: post)).rules key = some v := by
    unfold NewEnforcer.e
    rw [foldl_options_append, List.foldl_cons]
    apply foldl_options_invariant (fun e => e.rules key = some v) post
    · intro o ho e he
      rcases hpost o ho with ⟨b, rfl⟩ | ⟨g, rfl⟩ | ⟨k, w, hk, rfl⟩
      · simpa [WithNotFoundBehavior] using he
      · simpa [WithELogger] using he
      · simpa [WithRules, Ne.symm hk] using he
    · simp [WithRules]
  refine ⟨hrules, fun hg => ?_⟩
  obtain ⟨getLogger, hg⟩ := Option.ne_none_iff_exists'.mp hg
  exact decorate_checks_of_registered c _ getLogger hg next response request auth v hauth
    (by rw [hkey]; exact hrules)

/-- C8 at a concrete input: two `WithRules` for `Bearer`, the second followed
by an option of another kind; the token `old` the first chain refuses passes
the chain in force. -/
theorem C8_last_rules_win_witness :
    (∀ o ∈ [(WithNotFoundBehavior Allow : EOption demoSig)],
      (∃ b, o = WithNotFoundBehavior b) ∨ (∃ g, o = WithELogger g) ∨
      (∃ k w, k ≠ "Bearer" ∧ o = WithRules k w)) ∧
    demo.FromContext (demo.requestContext (some ("Bearer", "old"), "")) =
        some { Authorization := "Bearer", Token := "old" } ∧
    (NewEnforcer.e demo ([WithRules "Bearer" ["old"]] ++
        WithRules "Bearer" ["bad"] :: [WithNotFoundBehavior Allow])).rules "Bearer" =
      some ["bad"] ∧
    ∃ t, NewEnforcer demo ([WithRules "Bearer" ["old"]] ++
          WithRules "Bearer" ["bad"] :: [WithNotFoundBehavior Allow])
          "next" "w" (some ("Bearer", "old"), "") = some t ∧
      checks t = [(["bad"], demo.requestContext (some ("Bearer", "old"), ""), "old")] :=
  have hpost : ∀ o ∈ [(WithNotFoundBehavior Allow : EOption demoSig)],
      (∃ b, o = WithNotFoundBehavior b) ∨ (∃ g, o = WithELogger g) ∨
      (∃ k w, k ≠ "Bearer" ∧ o = WithRules k w) :=
    fun o ho => Or.inl ⟨Allow, List.mem_singleton.mp ho⟩
  have h := C8_last_rules_win demo [WithRules "Bearer" ["old"]] [WithNotFoundBehavior Allow]
    "Bearer" ["bad"] "next" "w" (some ("Bearer", "old"), "")
    { Authorization := "Bearer", Token := "old" } hpost rfl rfl
  ⟨hpost, rfl, h.1, h.2 (by simp [NewEnforcer.e, WithRules, WithNotFoundBehavior])⟩

/-- C9: the enforcer built by `NewEnforcer` has the fallback `Forbid` when no
option is a `WithNotFoundBehavior`, an empty table when no option is a
`WithRules`, and the resolver `bascule.GetDefaultLoggerFunc` when no option is
a `WithELogger`; built from no option at all, it rejects every request that
carries a credential with the single status 403 and no body, evaluating no
chain and not calling the downstream handler. -/
theorem C9_defaults {S : Sig} (c : Collaborators S) (options : List (EOption S))
    (next : S.Handler) (response : S.ResponseWriter) (request : S.Request)
    (auth : Authentication S) :
    ((∀ o ∈ options, (∃ g, o = WithELogger g) ∨ (∃ k v, o = WithRules k v)) →
      (NewEnforcer.e c options).notFoundBehavior = Forbid) ∧
    ((∀ o ∈ options, (∃ b, o = WithNotFoundBehavior b) ∨ (∃ g, o = WithELogger g)) →
      ∀ k, (NewEnforcer.e c options).rules k = none) ∧
    ((∀ o ∈ options, (∃ b, o = WithNotFoundBehavior b) ∨ (∃ k v, o = WithRules k v)) →
      (NewEnforcer.e c options).getLogger =
        some (fun ctx => some (c.GetDefaultLoggerFunc ctx))) ∧
    (c.FromContext (c.requestContext request) = some auth →
      ∃ t, NewEnforcer c [] next response request = some t ∧
        statusCodes t = [403] ∧ bodies t = [] ∧ checks t = [] ∧ forwards t = []) := by
  refine ⟨fun h => ?_, fun h k => ?_, fun h => ?_, fun hauth => ?_⟩
  · apply foldl_options_invariant (fun e => e.notFoundBehavior = Forbid) options
    · intro o ho e he
      rcases h o ho with ⟨g, rfl⟩ | ⟨k, v, rfl⟩
      · simpa [WithELogger] using he
      · simpa [WithRules] using he
    · rfl
  · apply foldl_options_invariant (fun e => e.rules k = none) options
    · intro o ho e he
      rcases h o ho with ⟨b, rfl⟩ | ⟨g, rfl⟩
      · simpa [WithNotFoundBehavior] using he
      · simpa [WithELogger] using he
    · rfl
  · apply foldl_options_invariant
      (fun e => e.getLogger = some (fun ctx => some (c.GetDefaultLoggerFunc ctx))) options
    · intro o ho e he
      rcases h o ho with ⟨b, rfl⟩ | ⟨k, v, rfl⟩
      · simpa [WithNotFoundBehavior] using he
      · simpa [WithRules] using he
    · rfl
  · simp [NewEnforcer, NewEnforcer.e, enforcer.decorate, hauth, Forbid, statusCodes,
      bodies, checks, forwards, StatusForbidden]

/-- C9 at a concrete input: an option list made of one `WithRules` for the
first two parts, of one `WithNotFoundBehavior` for the third, and a request
with a credential handled by the enforcer built from no option. -/
theorem C9_defaults_witness :
    (NewEnforcer.e demo [WithRules "Bearer" ["bad"]]).notFoundBehavior = Forbid ∧
    (∀ k, (NewEnforcer.e demo [WithNotFoundBehavior Allow]).rules k = none) ∧
    (NewEnforcer.e demo [WithNotFoundBehavior Allow]).getLogger =
        some (fun ctx => some (demo.GetDefaultLoggerFunc ctx)) ∧
    ∃ t, NewEnforcer demo [] "next" "w" (some ("Bearer", "x"), "") = some t ∧
      statusCodes t = [403] ∧ bodies t = [] ∧ checks t = [] ∧ forwards t = [] :=
  ⟨(C9_defaults demo [WithRules "Bearer" ["bad"]] "next" "w" (some ("Bearer", "x"), "")
      { Authorization := "Bearer", Token := "x" }).1
      (fun _ ho => Or.inr ⟨"Bearer", ["bad"], List.mem_singleton.mp ho⟩),
    (C9_defaults demo [WithNotFoundBehavior Allow] "next" "w" (some ("Bearer", "x"), "")
      { Authorization := "Bearer", Token := "x" }).2.1
      (fun _ ho => Or.inl ⟨Allow, List.mem_singleton.mp ho⟩),
    (C9_defaults demo [WithNotFoundBehavior Allow] "next" "w" (some ("Bearer", "x"), "")
      { Authorization := "Bearer", Token := "x" }).2.2.1
      (fun _ ho => Or.inl ⟨Allow, List.mem_singleton.mp ho⟩),
    (C9_defaults demo [] "next" "w" (some ("Bearer", "x"), "")
      { Authorization := "Bearer", Token := "x" }).2.2.2 rfl⟩

/-- C11: for every table, fallback value, resolver and request the handler
returns, and whenever it calls the downstream handler, that call is its last
effect and the only call, its arguments are the downstream handler, the
response writer and the request the gate received, and the gate itself writes
no status and no body to the response, before or after the call. -/
theorem C11_pass_through_transparent {S : Sig} (c : Collaborators S)
    (rules : Authorization → Option (Validators S)) (notFoundBehavior : NotFoundBehavior)
    (getLogger : S.Context → Option S.Logger)
    (next : S.Handler) (response : S.ResponseWriter) (request : S.Request) :
    ∃ t, enforcer.decorate c
          { notFoundBehavior := notFoundBehavior, rules := rules, getLogger := some getLogger }
          next response request = some t ∧
      (forwards t ≠ [] →
        (∃ pre, t = pre ++ [Effect.serveHTTP next response request] ∧ forwards pre = []) ∧
        forwards t = [(next, response, request)] ∧ statusCodes t = [] ∧ bodies t = []) := by
  cases hauth : c.FromContext (c.requestContext request) with
  | none =>
    simp [enforcer.decorate, hauth, forwards]
  | some auth =>
    cases hrules : rules auth.Authorization with
    | none =>
      by_cases hF : notFoundBehavior = Forbid
      · simp [enforcer.decorate, hauth, hrules, hF, forwards]
      · by_cases hA : notFoundBehavior = Allow
        · simp only [enforcer.decorate, hauth, hrules, hA, Allow, Forbid, decorate.accept]
          exact ⟨_, rfl, fun _ => ⟨⟨[_, _], rfl, rfl⟩, rfl, rfl, rfl⟩⟩
        · simp [enforcer.decorate, hauth, hrules, hF, hA, forwards]
    | some chain =>
      cases hcheck : c.Check chain (c.requestContext request) auth.Token with
      | none =>
        simp only [enforcer.decorate, hauth, hrules, hcheck, decorate.accept]
        exact ⟨_, rfl, fun _ => ⟨⟨[_, _], rfl, rfl⟩, rfl, rfl, rfl⟩⟩
      | some err =>
        simp [enforcer.decorate, hauth, hrules, hcheck, forwards, WriteResponse]

/-- C11 at a concrete input: a request the chain of `Bearer` accepts is handed
on as received, as the last effect, with nothing written by the gate. -/
theorem C11_pass_through_transparent_witness :
    ∃ t, enforcer.decorate demo
          { notFoundBehavior := Forbid,
            rules := fun k => if k = "Bearer" then some ["bad"] else none,
            getLogger := some demoResolver }
          "next" "w" (some ("Bearer", "good"), "") = some t ∧
      forwards t ≠ [] ∧
      (∃ pre, t = pre ++ [Effect.serveHTTP "next" "w" (some ("Bearer", "good"), "")] ∧
        forwards pre = []) ∧
      forwards t = [("next", "w", (some ("Bearer", "good"), ""))] ∧
      statusCodes t = [] ∧ bodies t = [] :=
  (C11_pass_through_transparent demo
      (fun k => if k = "Bearer" then some ["bad"] else none) Forbid demoResolver
      "next" "w" (some ("Bearer", "good"), "")).elim fun t h =>
    have hf : Option.map forwards (enforcer.decorate demo
          { notFoundBehavior := Forbid,
            rules := fun k => if k = "Bearer" then some ["bad"] else none,
            getLogger := some demoResolver }
          "next" "w" (some ("Bearer", "good"), "")) =
        some [("next", "w", (some ("Bearer", "good"), ""))] := rfl
    have hne : forwards t ≠ [] := by
      rw [h.1] at hf
      rw [Option.some.inj hf]
      exact List.cons_ne_nil _ _
    ⟨t, h.1, hne, h.2 hne⟩

/-- The loop that appends the message of each member to `errs`. -/
theorem foldl_append_messages {α : Type} (f : α → String) (es : List α) (init : List String) :
    es.foldl (fun errs e => errs ++ [f e]) init = init ++ es.map f := by
  induction es generalizing init with
  | nil => simp
  | cons e es ih => simp [ih]

/-- The logger of the handler when the resolver returns one. -/
theorem logger_of_some {S : Sig} (c : Collaborators S)
    (getLogger : S.Context → Option S.Logger) (ctx : S.Context) (l : S.Logger)
    (h : getLogger ctx = some l) : decorate.logger c getLogger ctx = l := by
  simp [decorate.logger, h]

/-- The logger of the handler when the resolver returns nil. -/
theorem logger_of_none {S : Sig} (c : Collaborators S)
    (getLogger : S.Context → Option S.Logger) (ctx : S.Context)
    (h : getLogger ctx = none) :
    decorate.logger c getLogger ctx = c.GetDefaultLoggerFunc ctx := by
  simp [decorate.logger, h]

/-- The handler uses its resolver only to obtain the logger of the request. -/
theorem decorate_resolver_eq {S : Sig} (c : Collaborators S)
    (rules : Authorization → Option (Validators S)) (notFoundBehavior : NotFoundBehavior)
    (getLogger : S.Context → Option S.Logger)
    (next : S.Handler) (response : S.ResponseWriter) (request : S.Request) :
    enforcer.decorate c
        { notFoundBehavior := notFoundBehavior, rules := rules, getLogger := some getLogger }
        next response request =
      enforcer.decorate c
        { notFoundBehavior := notFoundBehavior, rules := rules,
          getLogger := some (fun _ => some (decorate.logger c getLogger (c.requestContext request))) }
        next response request :=
  rfl

/-- With the logger `l` for the request, the handler emits at least one event
and every event goes to `l`. -/
theorem decorate_sinks {S : Sig} (c : Collaborators S)
    (rules : Authorization → Option (Validators S)) (notFoundBehavior : NotFoundBehavior)
    (l : S.Logger) (next : S.Handler) (response : S.ResponseWriter) (request : S.Request) :
    ∃ t, enforcer.decorate c
          { notFoundBehavior := notFoundBehavior, rules := rules,
            getLogger := some (fun _ => some l) }
          next response request = some t ∧
      sinks t ≠ [] ∧ ∀ s ∈ sinks t, s = l := by
  cases hauth : c.FromContext (c.requestContext request) with
  | none => simp [enforcer.decorate, decorate.logger, hauth, sinks]
  | some auth =>
    cases hrules : rules auth.Authorization with
    | none =>
      by_cases hF : notFoundBehavior = Forbid
      · simp [enforcer.decorate, decorate.logger, hauth, hrules, hF, sinks]
      · by_cases hA : notFoundBehavior = Allow
        · simp [enforcer.decorate, decorate.logger, hauth, hrules, hA, Allow, Forbid,
            decorate.accept, sinks]
        · simp [enforcer.decorate, decorate.logger, hauth, hrules, hF, hA, sinks]
    | some chain =>
      cases hcheck : c.Check chain (c.requestContext request) auth.Token <;>
        simp [enforcer.decorate, decorate.logger, hauth, hrules, hcheck, decorate.accept,
          WriteResponse, sinks]

/-- Two loggers for the same request: the handler emits the same key/values,
evaluates the same chains, writes the same statuses and bodies and makes the
same downstream call. -/
theorem decorate_logger_irrelevant {S : Sig} (c : Collaborators S)
    (rules : Authorization → Option (Validators S)) (notFoundBehavior : NotFoundBehavior)
    (l₁ l₂ : S.Logger) (next : S.Handler) (response : S.ResponseWriter) (request : S.Request) :
    ∃ t u,
      enforcer.decorate c
          { notFoundBehavior := notFoundBehavior, rules := rules,
            getLogger := some (fun _ => some l₁) }
          next response request = some t ∧
      enforcer.decorate c
          { notFoundBehavior := notFoundBehavior, rules := rules,
            getLogger := some (fun _ => some l₂) }
          next response request = some u ∧
      events u = events t ∧ checks u = checks t ∧ statusCodes u = statusCodes t ∧
      bodies u = bodies t ∧ forwards u = forwards t := by
  cases hauth : c.FromContext (c.requestContext request) with
  | none =>
    simp [enforcer.decorate, decorate.logger, hauth, events, checks, statusCodes, bodies,
      forwards]
  | some auth =>
    cases hrules : rules auth.Authorization with
    | none =>
      by_cases hF : notFoundBehavior = Forbid
      · simp [enforcer.decorate, decorate.logger, hauth, hrules, hF, events, checks,
          statusCodes, bodies, forwards]
      · by_cases hA : notFoundBehavior = Allow
        · simp [enforcer.decorate, decorate.logger, hauth, hrules, hA, Allow, Forbid,
            decorate.accept, events, checks, statusCodes, bodies, forwards]
        · simp [enforcer.decorate, decorate.logger, hauth, hrules, hF, hA, events, checks,
            statusCodes, bodies, forwards]
    | some chain =>
      cases hcheck : c.Check chain (c.requestContext request) auth.Token <;>
        simp [enforcer.decorate, decorate.logger, hauth, hrules, hcheck, decorate.accept,
          WriteResponse, events, checks, statusCodes, bodies, forwards]

/-- C14: when the evaluation of the registered chain returns the error `err`,
exactly one diagnostic event is emitted, of level error; its key/values are the
context values of `err`, then the level, then the error key with the list
`errs`; and `errs` is the message of `err` followed, when `err` is an aggregate
of `es`, by the messages of the members of `es` in their order (so its length
is the number of members plus one), and is the one-element list of the message
of `err` when `err` is not an aggregate. -/
theorem C14_error_list {S : Sig} (c : Collaborators S)
    (rules : Authorization → Option (Validators S)) (notFoundBehavior : NotFoundBehavior)
    (getLogger : S.Context → Option S.Logger)
    (next : S.Handler) (response : S.ResponseWriter) (request : S.Request)
    (auth : Authentication S) (chain : Validators S) (err : S.Error)
    (hauth : c.FromContext (c.requestContext request) = some auth)
    (hrules : rules auth.Authorization = some chain)
    (hcheck : c.Check chain (c.requestContext request) auth.Token = some err) :
    ∃ t, enforcer.decorate c
          { notFoundBehavior := notFoundBehavior, rules := rules, getLogger := some getLogger }
          next response request = some t ∧
      events t = [(c.emperrorContext err).map LogVal.context ++
        [LogVal.levelKey, LogVal.errorValue, LogVal.ErrorKey,
          LogVal.errs (decorate.errs c err)]] ∧
      levels t = [some Level.error] ∧
      (∀ es, c.asErrors err = some es →
        decorate.errs c err = c.errorString err :: es.map c.errorString ∧
        (decorate.errs c err).length = es.length + 1) ∧
      (c.asErrors err = none → decorate.errs c err = [c.errorString err]) := by
  refine ⟨_, by simp [enforcer.decorate, hauth, hrules, hcheck]; rfl, ?_, ?_, ?_, ?_⟩
  · simp [events, WriteResponse]
  · simp [levels, events, WriteResponse, levelOf_context_append, levelOf]
  · intro es hes
    simp [decorate.errs, hes, foldl_append_messages]
  · intro hnone
    simp [decorate.errs, hnone]

/-- C14 at a concrete input: the chain of `Bearer` fails with an aggregate of
two members and a context of two values. -/
theorem C14_error_list_witness :
    demoAgg.FromContext (demoAgg.requestContext (some ("Bearer", "bad"), "")) =
        some { Authorization := "Bearer", Token := "bad" } ∧
    demoAgg.Check ["bad"] (demoAgg.requestContext (some ("Bearer", "bad"), "")) "bad" =
        some ("multiple errors", ["expired", "wrong audience"]) ∧
    demoAgg.asErrors ("multiple errors", ["expired", "wrong audience"]) =
        some [("expired", []), ("wrong audience", [])] ∧
    ∃ t, enforcer.decorate demoAgg
          { notFoundBehavior := Forbid,
            rules := fun k => if k = "Bearer" then some ["bad"] else none,
            getLogger := some demoResolver }
          "next" "w" (some ("Bearer", "bad"), "") = some t ∧
      events t = [[LogVal.context "validator", LogVal.context "chain",
        LogVal.levelKey, LogVal.errorValue, LogVal.ErrorKey,
        LogVal.errs ["multiple errors", "expired", "wrong audience"]]] ∧
      levels t = [some Level.error] ∧
      decorate.errs demoAgg ("multiple errors", ["expired", "wrong audience"]) =
        ["multiple errors", "expired", "wrong audience"] :=
  ⟨rfl, rfl, rfl,
    (C14_error_list demoAgg (fun k => if k = "Bearer" then some ["bad"] else none) Forbid
      demoResolver "next" "w" (some ("Bearer", "bad"), "")
      { Authorization := "Bearer", Token := "bad" } ["bad"]
      ("multiple errors", ["expired", "wrong audience"]) rfl rfl rfl).elim fun t h =>
        ⟨t, h.1, h.2.1, h.2.2.1, (h.2.2.2.1 _ rfl).1⟩⟩

/-- C15, amended: on a gate whose resolver is not nil, when the scheme of the
credential is not a key of the table, whatever the fallback value, the first
effect of the handler is a diagnostic event of
level error whose key/values hold the scheme of the credential and the
configured fallback value, written to the logger of the request; what the
fallback decides comes after it: the call of the downstream handler under
`Allow`, the status 403 under any other value. -/
theorem C15_not_found_event {S : Sig} (c : Collaborators S)
    (rules : Authorization → Option (Validators S)) (notFoundBehavior : NotFoundBehavior)
    (getLogger : S.Context → Option S.Logger)
    (next : S.Handler) (response : S.ResponseWriter) (request : S.Request)
    (auth : Authentication S)
    (hauth : c.FromContext (c.requestContext request) = some auth)
    (hrules : rules auth.Authorization = none) :
    ∃ t keyvals rest, enforcer.decorate c
          { notFoundBehavior := notFoundBehavior, rules := rules, getLogger := some getLogger }
          next response request = some t ∧
      t = Effect.log (decorate.logger c getLogger (c.requestContext request)) keyvals :: rest ∧
      levelOf keyvals = some Level.error ∧
      LogVal.authorization auth.Authorization ∈ keyvals ∧
      LogVal.behavior notFoundBehavior ∈ keyvals ∧
      (notFoundBehavior = Allow →
        forwards rest = [(next, response, request)] ∧ statusCodes rest = []) ∧
      (notFoundBehavior ≠ Allow → statusCodes rest = [403] ∧ forwards rest = []) := by
  by_cases hF : notFoundBehavior = Forbid
  · refine ⟨_, [LogVal.levelKey, LogVal.errorValue, LogVal.ErrorKey,
        LogVal.str "no rules found for authorization", LogVal.str "rules", LogVal.rules [],
        LogVal.str "authorization", LogVal.authorization auth.Authorization,
        LogVal.str "behavior", LogVal.behavior notFoundBehavior],
      [Effect.writeHeader response StatusForbidden], ?_, rfl, rfl, by simp, by simp, ?_, ?_⟩
    · simp [enforcer.decorate, hauth, hrules, hF]
    · intro h; exact absurd (hF ▸ h) (by decide)
    · intro _; exact ⟨rfl, rfl⟩
  · by_cases hA : notFoundBehavior = Allow
    · refine ⟨_, [LogVal.levelKey, LogVal.errorValue, LogVal.ErrorKey,
          LogVal.str "no rules found for authorization", LogVal.str "rules", LogVal.rules [],
          LogVal.str "authorization", LogVal.authorization auth.Authorization,
          LogVal.str "behavior", LogVal.behavior notFoundBehavior],
        decorate.accept (decorate.logger c getLogger (c.requestContext request)) next
          response request, ?_, rfl, rfl, by simp, by simp, ?_, ?_⟩
      · simp [enforcer.decorate, hauth, hrules, hA, Allow, Forbid]
      · intro _; exact ⟨rfl, rfl⟩
      · intro h; exact absurd hA h
    · refine ⟨_, [LogVal.levelKey, LogVal.errorValue, LogVal.ErrorKey,
          LogVal.str "no rules found for authorization", LogVal.str "rules", LogVal.rules [],
          LogVal.str "authorization", LogVal.authorization auth.Authorization,
          LogVal.str "behavior", LogVal.behavior notFoundBehavior],
        [Effect.writeHeader response StatusForbidden], ?_, rfl, rfl, by simp, by simp, ?_, ?_⟩
      · simp [enforcer.decorate, hauth, hrules, hF, hA]
      · intro h; exact absurd h hA
      · intro _; exact ⟨rfl, rfl⟩

/-- C15, amended, at a concrete input: the table holds `Bearer` only, the credential has
the scheme `Basic` and the fallback is `Allow`. -/
theorem C15_not_found_event_witness :
    demo.FromContext (demo.requestContext (some ("Basic", "x"), "")) =
        some { Authorization := "Basic", Token := "x" } ∧
    (fun k => if k = "Bearer" then some ["bad"] else none :
        Authorization → Option (Validators demoSig)) "Basic" = none ∧
    ∃ t keyvals rest, enforcer.decorate demo
          { notFoundBehavior := Allow,
            rules := fun k => if k = "Bearer" then some ["bad"] else none,
            getLogger := some demoResolver }
          "next" "w" (some ("Basic", "x"), "") = some t ∧
      t = Effect.log "default" keyvals :: rest ∧
      levelOf keyvals = some Level.error ∧
      LogVal.authorization "Basic" ∈ keyvals ∧
      LogVal.behavior Allow ∈ keyvals ∧
      forwards rest = [("next", "w", (some ("Basic", "x"), ""))] ∧ statusCodes rest = [] := by
  obtain ⟨t, keyvals, rest, ht, hlog, hlevel, hscheme, hbehavior, hallow, -⟩ :=
    C15_not_found_event demo (fun k => if k = "Bearer" then some ["bad"] else none) Allow
      demoResolver "next" "w" (some ("Basic", "x"), "")
      { Authorization := "Basic", Token := "x" } rfl rfl
  exact ⟨rfl, rfl, t, keyvals, rest, ht, hlog, hlevel, hscheme, hbehavior, hallow rfl⟩

/-- For every table, fallback value, resolver that is not nil and request, the
handler emits at least one diagnostic event, every event goes to the logger the
resolver returns for the context of the request, or to the default logger when
it returns nil, and with any other resolver the handler emits the same
key/values, evaluates the same chains, writes the same statuses and bodies,
makes the same downstream call and reaches the same decision. -/
theorem decorate_events_to_sink {S : Sig} (c : Collaborators S)
    (rules : Authorization → Option (Validators S)) (notFoundBehavior : NotFoundBehavior)
    (getLogger : S.Context → Option S.Logger)
    (next : S.Handler) (response : S.ResponseWriter) (request : S.Request) :
    ∃ t, enforcer.decorate c
          { notFoundBehavior := notFoundBehavior, rules := rules, getLogger := some getLogger }
          next response request = some t ∧
      sinks t ≠ [] ∧
      (∀ l, getLogger (c.requestContext request) = some l → ∀ s ∈ sinks t, s = l) ∧
      (getLogger (c.requestContext request) = none →
        ∀ s ∈ sinks t, s = c.GetDefaultLoggerFunc (c.requestContext request)) ∧
      (∀ other : S.Context → Option S.Logger,
        ∃ u, enforcer.decorate c
            { notFoundBehavior := notFoundBehavior, rules := rules, getLogger := some other }
            next response request = some u ∧
          events u = events t ∧ checks u = checks t ∧ statusCodes u = statusCodes t ∧
          bodies u = bodies t ∧ forwards u = forwards t ∧ decision u = decision t) := by
  rw [decorate_resolver_eq c rules notFoundBehavior getLogger]
  obtain ⟨t, ht, hne, hall⟩ := decorate_sinks c rules notFoundBehavior
    (decorate.logger c getLogger (c.requestContext request)) next response request
  refine ⟨t, ht, hne, fun l hl s hs => ?_, fun hn s hs => ?_, fun other => ?_⟩
  · rw [hall s hs, logger_of_some c getLogger _ l hl]
  · rw [hall s hs, logger_of_none c getLogger _ hn]
  · rw [decorate_resolver_eq c rules notFoundBehavior other]
    obtain ⟨t', u, ht', hu, he, hc, hs, hb, hf⟩ := decorate_logger_irrelevant c rules
      notFoundBehavior (decorate.logger c getLogger (c.requestContext request))
      (decorate.logger c other (c.requestContext request)) next response request
    have htt : t' = t := Option.some.inj (ht'.symm.trans ht)
    subst htt
    exact ⟨u, hu, he, hc, hs, hb, hf, by simp [decision, hs, hf]⟩

/-- C17: when the scheme of the credential is a key of the table, the handler
does the same with any two fallback values: the same effects in the same order
(events, chain evaluation, response writes, downstream call); the chain stored
under the key is evaluated whatever the fallback, also when that chain is
empty, since the branch is chosen by the presence of the key. -/
theorem C17_fallback_irrelevant_when_registered {S : Sig} (c : Collaborators S)
    (rules : Authorization → Option (Validators S)) (b₁ b₂ : NotFoundBehavior)
    (getLogger : S.Context → Option S.Logger)
    (next : S.Handler) (response : S.ResponseWriter) (request : S.Request)
    (auth : Authentication S) (chain : Validators S)
    (hauth : c.FromContext (c.requestContext request) = some auth)
    (hrules : rules auth.Authorization = some chain) :
    enforcer.decorate c
        { notFoundBehavior := b₁, rules := rules, getLogger := some getLogger }
        next response request =
      enforcer.decorate c
        { notFoundBehavior := b₂, rules := rules, getLogger := some getLogger }
        next response request ∧
    ∃ t, enforcer.decorate c
          { notFoundBehavior := b₁, rules := rules, getLogger := some getLogger }
          next response request = some t ∧
      checks t = [(chain, c.requestContext request, auth.Token)] := by
  constructor
  · simp [enforcer.decorate, hauth, hrules]
  · exact decorate_checks_of_registered c _ getLogger rfl next response request auth chain
      hauth hrules

/-- C17 at a concrete input: `Bearer` is registered with the empty chain; under
`Forbid` and under `Allow` alike the empty chain is evaluated. -/
theorem C17_fallback_irrelevant_when_registered_witness :
    demo.FromContext (demo.requestContext (some ("Bearer", "x"), "")) =
        some { Authorization := "Bearer", Token := "x" } ∧
    (NewEnforcer.e demo [WithRules "Bearer" []]).rules "Bearer" = some [] ∧
    enforcer.decorate demo
        { notFoundBehavior := Forbid, rules := (NewEnforcer.e demo [WithRules "Bearer" []]).rules,
          getLogger := some demoResolver }
        "next" "w" (some ("Bearer", "x"), "") =
      enforcer.decorate demo
        { notFoundBehavior := Allow, rules := (NewEnforcer.e demo [WithRules "Bearer" []]).rules,
          getLogger := some demoResolver }
        "next" "w" (some ("Bearer", "x"), "") ∧
    ∃ t, enforcer.decorate demo
          { notFoundBehavior := Forbid,
            rules := (NewEnforcer.e demo [WithRules "Bearer" []]).rules,
            getLogger := some demoResolver }
          "next" "w" (some ("Bearer", "x"), "") = some t ∧
      checks t = [([], demo.requestContext (some ("Bearer", "x"), ""), "x")] :=
  ⟨rfl, rfl,
    C17_fallback_irrelevant_when_registered demo
      (NewEnforcer.e demo [WithRules "Bearer" []]).rules Forbid Allow demoResolver "next" "w"
      (some ("Bearer", "x"), "") { Authorization := "Bearer", Token := "x" } [] rfl rfl⟩

/-- When the scheme of the credential is not a key of the table and the
resolver is not nil, a fallback value that is neither `Forbid` nor `Allow`
gives the single status 403, no body, no chain evaluated and no downstream
call; and the downstream handler is called exactly when the value is `Allow`. -/
theorem decorate_unregistered_fallback {S : Sig} (c : Collaborators S)
    (rules : Authorization → Option (Validators S)) (notFoundBehavior : NotFoundBehavior)
    (getLogger : S.Context → Option S.Logger)
    (next : S.Handler) (response : S.ResponseWriter) (request : S.Request)
    (auth : Authentication S)
    (hauth : c.FromContext (c.requestContext request) = some auth)
    (hrules : rules auth.Authorization = none) :
    ∃ t, enforcer.decorate c
          { notFoundBehavior := notFoundBehavior, rules := rules, getLogger := some getLogger }
          next response request = some t ∧
      (notFoundBehavior ≠ Forbid → notFoundBehavior ≠ Allow →
        statusCodes t = [403] ∧ bodies t = [] ∧ checks t = [] ∧ forwards t = []) ∧
      (forwards t ≠ [] ↔ notFoundBehavior = Allow) := by
  by_cases hF : notFoundBehavior = Forbid
  · have hA : ¬ (Forbid = Allow) := by decide
    simp [enforcer.decorate, hauth, hrules, hF, hA, forwards]
  · by_cases hA : notFoundBehavior = Allow
    · simp [enforcer.decorate, hauth, hrules, hA, Allow, Forbid, decorate.accept, forwards]
    · simp [enforcer.decorate, hauth, hrules, hF, hA, statusCodes, bodies, checks, forwards,
        StatusForbidden]

/-- C19: `WithRules(k, v)` puts `v` under `k`, keeps the chain under every other
key and keeps the fallback and the resolver, so two `WithRules` for distinct
keys can be exchanged, as functions and as neighbours in an option list;
`WithNotFoundBehavior` and `WithELogger` keep the table and each other's field;
`NewEnforcer` applies its options from left to right; and the fallback, and the
resolver, in effect is that of the last `WithNotFoundBehavior`, and of the last
`WithELogger`, in the list. -/
theorem C19_options_independent {S : Sig} (c : Collaborators S) (e : enforcer S)
    (k k₂ : Authorization) (v v₂ : Validators S) (b : NotFoundBehavior)
    (g : Option (S.Context → Option S.Logger))
    (pre post options : List (EOption S)) (o : EOption S) :
    ((WithRules k v e).rules k = some v ∧
      (∀ k', k' ≠ k → (WithRules k v e).rules k' = e.rules k') ∧
      (WithRules k v e).notFoundBehavior = e.notFoundBehavior ∧
      (WithRules k v e).getLogger = e.getLogger) ∧
    (k ≠ k₂ → WithRules k v (WithRules k₂ v₂ e) = WithRules k₂ v₂ (WithRules k v e)) ∧
    (k ≠ k₂ → NewEnforcer.e c (pre ++ WithRules k v :: WithRules k₂ v₂ :: post) =
      NewEnforcer.e c (pre ++ WithRules k₂ v₂ :: WithRules k v :: post)) ∧
    ((WithNotFoundBehavior b e).rules = e.rules ∧
      (WithNotFoundBehavior b e).getLogger = e.getLogger ∧
      (WithNotFoundBehavior b e).notFoundBehavior = b) ∧
    ((WithELogger g e).rules = e.rules ∧
      (WithELogger g e).notFoundBehavior = e.notFoundBehavior ∧
      (WithELogger g e).getLogger = g) ∧
    NewEnforcer.e c (options ++ [o]) = o (NewEnforcer.e c options) ∧
    ((∀ o ∈ post, (∃ k v, o = WithRules k v) ∨ (∃ g, o = WithELogger g)) →
      (NewEnforcer.e c (pre ++ WithNotFoundBehavior b :: post)).notFoundBehavior = b) ∧
    ((∀ o ∈ post, (∃ k v, o = WithRules k v) ∨ (∃ b, o = WithNotFoundBehavior b)) →
      (NewEnforcer.e c (pre ++ WithELogger g :: post)).getLogger = g) := by
  have hcomm : ∀ e : enforcer S, k ≠ k₂ →
      WithRules k v (WithRules k₂ v₂ e) = WithRules k₂ v₂ (WithRules k v e) := by
    intro e hk
    simp only [WithRules, enforcer.mk.injEq, true_and, and_true]
    funext k'
    by_cases h₁ : k' = k
    · have h₂ : k' ≠ k₂ := fun h => hk (h₁.symm.trans h)
      simp [h₁, hk]
    · simp [h₁]
  refine ⟨⟨by simp [WithRules], fun k' hk' => by simp [WithRules, hk'], rfl, rfl⟩,
    hcomm e, fun hk => ?_, ⟨rfl, rfl, rfl⟩, ⟨rfl, rfl, rfl⟩, ?_, fun h => ?_, fun h => ?_⟩
  · simp only [NewEnforcer.e, foldl_options_append, List.foldl_cons]
    rw [hcomm _ hk]
  · simp [NewEnforcer.e, List.foldl_append]
  · unfold NewEnforcer.e
    rw [foldl_options_append, List.foldl_cons]
    apply foldl_options_invariant (fun e => e.notFoundBehavior = b) post
    · intro o ho e he
      rcases h o ho with ⟨k, v, rfl⟩ | ⟨g, rfl⟩
      · simpa [WithRules] using he
      · simpa [WithELogger] using he
    · rfl
  · unfold NewEnforcer.e
    rw [foldl_options_append, List.foldl_cons]
    apply foldl_options_invariant (fun e => e.getLogger = g) post
    · intro o ho e he
      rcases h o ho with ⟨k, v, rfl⟩ | ⟨b, rfl⟩
      · simpa [WithRules] using he
      · simpa [WithNotFoundBehavior] using he
    · rfl

/-- C19 at a concrete input: two `WithRules` for `Bearer` and `Basic` exchanged
inside an option list, and two `WithNotFoundBehavior` of which the last one is
in effect. -/
theorem C19_options_independent_witness :
    ("Bearer" : Authorization) ≠ "Basic" ∧
    NewEnforcer.e demo ([WithNotFoundBehavior Allow] ++
        WithRules "Bearer" ["bad"] :: WithRules "Basic" ["old"] :: [WithELogger none]) =
      NewEnforcer.e demo ([WithNotFoundBehavior Allow] ++
        WithRules "Basic" ["old"] :: WithRules "Bearer" ["bad"] :: [WithELogger none]) ∧
    (NewEnforcer.e demo ([WithNotFoundBehavior Allow] ++
        WithNotFoundBehavior Forbid :: [WithRules "Bearer" ["bad"]])).notFoundBehavior =
      Forbid :=
  ⟨by decide,
    (C19_options_independent demo (NewEnforcer.e demo []) "Bearer" "Basic" ["bad"] ["old"]
      Forbid none [WithNotFoundBehavior Allow] [WithELogger none] []
      (WithELogger none)).2.2.1 (by decide),
    (C19_options_independent demo (NewEnforcer.e demo []) "Bearer" "Basic" ["bad"] ["old"]
      Forbid none [WithNotFoundBehavior Allow] [WithRules "Bearer" ["bad"]] []
      (WithELogger none)).2.2.2.2.2.2.1
      (fun _ ho => Or.inl ⟨"Bearer", ["bad"], List.mem_singleton.mp ho⟩)⟩

/-- The state-passing handler with a downstream handler that is not nil does
what `decorate` does on the enforcer of its state: it panics, performing
nothing, exactly when `decorate` gives `none`, and otherwise performs the
effects `decorate` lists. -/
theorem handler_some_eq_decorate {S : Sig} (c : Collaborators S) (s : HandlerState S)
    (next : S.Handler) (response : S.ResponseWriter) (request : S.Request) :
    enforcer.handler c (some next) response request s =
      match s.e.decorate c next response request with
      | some t => s.perform t
      | none => s.fault := by
  obtain ⟨⟨b, rules, g⟩, pre, panicked⟩ := s
  cases g with
  | none => simp [enforcer.handler, enforcer.decorate, HandlerState.fault]
  | some getLogger =>
    cases hauth : c.FromContext (c.requestContext request) with
    | none =>
      simp [enforcer.handler, enforcer.decorate, HandlerState.perform, hauth]
    | some auth =>
      cases hrules : rules auth.Authorization with
      | none =>
        by_cases hF : b = Forbid
        · simp [enforcer.handler, enforcer.decorate, HandlerState.perform, hauth, hrules, hF]
        · by_cases hA : b = Allow
          · simp [enforcer.handler, enforcer.decorate, HandlerState.perform, hauth, hrules,
              hA, Allow, Forbid, decorate.forward, decorate.accept]
          · simp [enforcer.handler, enforcer.decorate, HandlerState.perform, hauth, hrules,
              hF, hA]
      | some chain =>
        cases hcheck : c.Check chain (c.requestContext request) auth.Token <;>
          simp [enforcer.handler, enforcer.decorate, HandlerState.perform, hauth, hrules,
            hcheck, decorate.forward, decorate.accept]

/-- With a resolver that is not nil, the effects `decorate` lists hold exactly
one terminal outcome: one downstream call and no response write, or no
downstream call and the one status 403 or 401. -/
theorem decorate_one_outcome {S : Sig} (c : Collaborators S)
    (rules : Authorization → Option (Validators S)) (b : NotFoundBehavior)
    (getLogger : S.Context → Option S.Logger)
    (next : S.Handler) (response : S.ResponseWriter) (request : S.Request) :
    ∃ t, enforcer.decorate c
          { notFoundBehavior := b, rules := rules, getLogger := some getLogger }
          next response request = some t ∧
      ((forwards t = [(next, response, request)] ∧ statusCodes t = [] ∧ bodies t = []) ∨
       (forwards t = [] ∧ (statusCodes t = [403] ∨ statusCodes t = [401]))) := by
  cases hauth : c.FromContext (c.requestContext request) with
  | none =>
    simp [enforcer.decorate, hauth, statusCodes, forwards, StatusForbidden]
  | some auth =>
    cases hrules : rules auth.Authorization with
    | none =>
      by_cases hF : b = Forbid
      · simp [enforcer.decorate, hauth, hrules, hF, statusCodes, forwards, StatusForbidden]
      · by_cases hA : b = Allow
        · simp [enforcer.decorate, hauth, hrules, hA, statusCodes, forwards, bodies,
            decorate.accept, Allow, Forbid]
        · simp [enforcer.decorate, hauth, hrules, hF, hA, statusCodes, forwards,
            StatusForbidden]
    | some chain =>
      cases hcheck : c.Check chain (c.requestContext request) auth.Token with
      | none =>
        simp [enforcer.decorate, hauth, hrules, hcheck, statusCodes, forwards, bodies,
          decorate.accept]
      | some err =>
        simp [enforcer.decorate, hauth, hrules, hcheck, statusCodes, forwards,
          WriteResponse, StatusUnauthorized]

/-- C7, refuted as stated, at two inputs. The configuration built by
`NewEnforcer` from the single option `WithELogger(nil)` makes the handler panic
on a request at the call of the nil resolver, with no effect performed. And the
handler obtained from a nil downstream handler and the configuration built from
`WithNotFoundBehavior(Allow)` panics, on a request whose scheme is
unregistered, at the call `next.ServeHTTP` after its two log records, having
written no status and called no downstream handler. -/
theorem C7_panic_counterexample :
    NewEnforcer demo [WithELogger none] "next" "w" (some ("Bearer", "x"), "") = none ∧
    enforcer.handler demo (some "next") "w" (some ("Bearer", "x"), "")
        { e := NewEnforcer.e demo [WithELogger none], effects := [], panicked := false } =
      { e := NewEnforcer.e demo [WithELogger none], effects := [], panicked := true } ∧
    (enforcer.handler demo none "w" (some ("Bearer", "x"), "")
        { e := NewEnforcer.e demo [WithNotFoundBehavior Allow], effects := [],
          panicked := false }).panicked = true ∧
    forwards (enforcer.handler demo none "w" (some ("Bearer", "x"), "")
        { e := NewEnforcer.e demo [WithNotFoundBehavior Allow], effects := [],
          panicked := false }).effects = [] ∧
    statusCodes (enforcer.handler demo none "w" (some ("Bearer", "x"), "")
        { e := NewEnforcer.e demo [WithNotFoundBehavior Allow], effects := [],
          panicked := false }).effects = [] :=
  ⟨rfl, rfl, rfl, rfl, rfl⟩

/-- C7, amended: for every configuration built by `NewEnforcer` whose resolver
is not nil, every downstream handler that is not nil and every request, the
handler returns without a panic, leaves the enforcer as built, and has produced
exactly one terminal outcome: either the downstream handler was called exactly
once (with the response writer and the request received) and the gate wrote no
status and no body, or exactly one status, 403 or 401, was written and the
downstream handler was not called. -/
theorem C7_one_terminal_outcome {S : Sig} (c : Collaborators S)
    (options : List (EOption S)) (getLogger : S.Context → Option S.Logger)
    (next : S.Handler) (response : S.ResponseWriter) (request : S.Request)
    (hg : (NewEnforcer.e c options).getLogger = some getLogger) :
    ∃ t, NewEnforcer c options next response request = some t ∧
      enforcer.handler c (some next) response request
          { e := NewEnforcer.e c options, effects := [], panicked := false } =
        { e := NewEnforcer.e c options, effects := t, panicked := false } ∧
      ((forwards t = [(next, response, request)] ∧ statusCodes t = [] ∧ bodies t = []) ∨
       (forwards t = [] ∧ (statusCodes t = [403] ∨ statusCodes t = [401]))) := by
  obtain ⟨t, ht, hout⟩ := decorate_one_outcome c (NewEnforcer.e c options).rules
    (NewEnforcer.e c options).notFoundBehavior getLogger next response request
  rw [← decorate_of_getLogger c _ getLogger hg] at ht
  refine ⟨t, ht, ?_, hout⟩
  rw [handler_some_eq_decorate]
  simp only [ht]
  simp [HandlerState.perform]

/-- C7, amended, at a concrete input: a configuration with a rule and a
resolver, and a request whose token the chain refuses. -/
theorem C7_one_terminal_outcome_witness :
    (NewEnforcer.e demo [WithRules "Bearer" ["bad"], WithELogger (some demoResolver)]).getLogger =
        some demoResolver ∧
    ∃ t, NewEnforcer demo [WithRules "Bearer" ["bad"], WithELogger (some demoResolver)]
          "next" "w" (some ("Bearer", "bad"), "traced") = some t ∧
      enforcer.handler demo (some "next") "w" (some ("Bearer", "bad"), "traced")
          { e := NewEnforcer.e demo [WithRules "Bearer" ["bad"], WithELogger (some demoResolver)],
            effects := [], panicked := false } =
        { e := NewEnforcer.e demo [WithRules "Bearer" ["bad"], WithELogger (some demoResolver)],
          effects := t, panicked := false } ∧
      ((forwards t = [("next", "w", (some ("Bearer", "bad"), "traced"))] ∧
          statusCodes t = [] ∧ bodies t = []) ∨
       (forwards t = [] ∧ (statusCodes t = [403] ∨ statusCodes t = [401]))) :=
  ⟨rfl, C7_one_terminal_outcome demo _ demoResolver "next" "w"
    (some ("Bearer", "bad"), "traced") rfl⟩

/-- C13: running the handler from any state, with any downstream handler (nil
or not) and on any request, leaves the enforcer as it was: the table (its keys
and the chain under each key), the fallback and the resolver after the run are
those before it; the run only appends effects, and every call of a downstream
handler among them carries the downstream handler, the response writer and the
request the gate received; with a downstream handler that is not nil the
effects appended are those `decorate` lists for the request; and the enforcer
is also unchanged after any sequence of requests served one after the other. -/
theorem C13_configuration_unchanged {S : Sig} (c : Collaborators S)
    (next : Option S.Handler) (response : S.ResponseWriter) (request : S.Request)
    (s : HandlerState S) (requests : List (S.ResponseWriter × S.Request)) :
    ((enforcer.handler c next response request s).e.rules = s.e.rules ∧
      (enforcer.handler c next response request s).e.notFoundBehavior =
        s.e.notFoundBehavior ∧
      (enforcer.handler c next response request s).e.getLogger = s.e.getLogger) ∧
    (∃ new, (enforcer.handler c next response request s).effects = s.effects ++ new ∧
      ∀ f ∈ forwards new, some f.1 = next ∧ f.2.1 = response ∧ f.2.2 = request) ∧
    (∀ h t, next = some h → s.e.decorate c h response request = some t →
      (enforcer.handler c next response request s).effects = s.effects ++ t) ∧
    (requests.foldl
      (fun s p => enforcer.handler c next p.1 p.2 { s with panicked := false }) s).e = s.e := by
  have frame : ∀ (response : S.ResponseWriter) (request : S.Request) (s : HandlerState S),
      (enforcer.handler c next response request s).e = s.e ∧
      ∃ new, (enforcer.handler c next response request s).effects = s.effects ++ new ∧
        ∀ f ∈ forwards new, some f.1 = next ∧ f.2.1 = response ∧ f.2.2 = request := by
    intro response request s
    obtain ⟨⟨b, rules, g⟩, effects, panicked⟩ := s
    cases g with
    | none => exact ⟨rfl, [], by simp [enforcer.handler, HandlerState.fault], by simp [forwards]⟩
    | some getLogger =>
      cases hauth : c.FromContext (c.requestContext request) with
      | none =>
        exact ⟨by simp [enforcer.handler, HandlerState.perform, hauth], _,
          by simp [enforcer.handler, HandlerState.perform, hauth]; rfl, by simp [forwards]⟩
      | some auth =>
        cases hrules : rules auth.Authorization with
        | none =>
          by_cases hF : b = Forbid
          · exact ⟨by simp [enforcer.handler, HandlerState.perform, hauth, hrules, hF], _,
              by simp [enforcer.handler, HandlerState.perform, hauth, hrules, hF]; rfl,
              by simp [forwards]⟩
          · by_cases hA : b = Allow
            · cases next with
              | none =>
                exact ⟨by simp [enforcer.handler, HandlerState.perform, HandlerState.fault,
                    decorate.forward, hauth, hrules, hA, Allow, Forbid], _,
                  by simp [enforcer.handler, HandlerState.perform, HandlerState.fault,
                    decorate.forward, hauth, hrules, hA, Allow, Forbid]; rfl,
                  by simp [forwards]⟩
              | some h =>
                exact ⟨by simp [enforcer.handler, HandlerState.perform, decorate.forward,
                    hauth, hrules, hA, Allow, Forbid], _,
                  by simp [enforcer.handler, HandlerState.perform, decorate.forward, hauth,
                    hrules, hA, Allow, Forbid]; rfl,
                  by simp [forwards]⟩
            · exact ⟨by simp [enforcer.handler, HandlerState.perform, hauth, hrules, hF, hA],
                _, by simp [enforcer.handler, HandlerState.perform, hauth, hrules, hF, hA]; rfl,
                by simp [forwards]⟩
        | some chain =>
          cases hcheck : c.Check chain (c.requestContext request) auth.Token with
          | some err =>
            exact ⟨by simp [enforcer.handler, HandlerState.perform, hauth, hrules, hcheck], _,
              by simp [enforcer.handler, HandlerState.perform, hauth, hrules, hcheck]; rfl,
              by simp [forwards, WriteResponse]⟩
          | none =>
            cases next with
            | none =>
              exact ⟨by simp [enforcer.handler, HandlerState.perform, HandlerState.fault,
                  decorate.forward, hauth, hrules, hcheck], _,
                by simp [enforcer.handler, HandlerState.perform, HandlerState.fault,
                  decorate.forward, hauth, hrules, hcheck]; rfl,
                by simp [forwards]⟩
            | some h =>
              exact ⟨by simp [enforcer.handler, HandlerState.perform, decorate.forward,
                  hauth, hrules, hcheck], _,
                by simp [enforcer.handler, HandlerState.perform, decorate.forward, hauth,
                  hrules, hcheck]; rfl,
                by simp [forwards]⟩
  refine ⟨?_, (frame response request s).2, ?_, ?_⟩
  · rw [(frame response request s).1]
    exact ⟨rfl, rfl, rfl⟩
  · intro h t hnext ht
    subst hnext
    rw [handler_some_eq_decorate]
    simp only [ht]
    rfl
  · induction requests generalizing s with
    | nil => rfl
    | cons p ps ih =>
      rw [List.foldl_cons, ih, (frame p.1 p.2 _).1]

/-- C13 at a concrete input: a gate built with one rule serves a rejected and
then an accepted request; the table, and the whole enforcer, are as built. -/
theorem C13_configuration_unchanged_witness :
    (enforcer.handler demo (some "next") "w1" (some ("Bearer", "bad"), "")
        { e := NewEnforcer.e demo [WithRules "Bearer" ["bad"]], effects := [],
          panicked := false }).e.rules =
      (NewEnforcer.e demo [WithRules "Bearer" ["bad"]]).rules ∧
    ([("w1", ((some ("Bearer", "bad"), "") : demoSig.Request)),
      ("w2", (some ("Bearer", "good"), ""))].foldl
        (fun s p => enforcer.handler demo (some "next") p.1 p.2 { s with panicked := false })
        { e := NewEnforcer.e demo [WithRules "Bearer" ["bad"]], effects := [],
          panicked := false }).e =
      NewEnforcer.e demo [WithRules "Bearer" ["bad"]] :=
  ⟨(C13_configuration_unchanged demo (some "next") "w1" (some ("Bearer", "bad"), "")
      { e := NewEnforcer.e demo [WithRules "Bearer" ["bad"]], effects := [],
        panicked := false } []).1.1,
    (C13_configuration_unchanged demo (some "next") "w1" (some ("Bearer", "bad"), "")
      { e := NewEnforcer.e demo [WithRules "Bearer" ["bad"]], effects := [],
        panicked := false }
      [("w1", (some ("Bearer", "bad"), "")), ("w2", (some ("Bearer", "good"), ""))]).2.2.2⟩

/-- C1, refuted as stated: the gate built by `NewEnforcer` from the single
option `WithELogger(nil)` does not answer a request without a credential with
403: the handler panics at the call of the nil resolver, before any status is
written. -/
theorem C1_nil_resolver_counterexample :
    demo.FromContext (demo.requestContext (none, "")) = none ∧
    NewEnforcer demo [WithELogger none] "next" "w" (none, "") = none ∧
    enforcer.handler demo (some "next") "w" (none, "")
        { e := NewEnforcer.e demo [WithELogger none], effects := [], panicked := false } =
      { e := NewEnforcer.e demo [WithELogger none], effects := [], panicked := true } :=
  ⟨rfl, rfl, rfl⟩

/-- C4, refuted as stated: the gate built from `WithNotFoundBehavior(Forbid)`
and `WithELogger(nil)` does not answer a credential of an unregistered scheme
with 403: the handler panics at the call of the nil resolver. -/
theorem C4_nil_resolver_counterexample :
    demo.FromContext (demo.requestContext (some ("Basic", "good"), "")) =
        some { Authorization := "Basic", Token := "good" } ∧
    (NewEnforcer.e demo [WithNotFoundBehavior Forbid, WithELogger none]).rules "Basic" =
        none ∧
    (NewEnforcer.e demo [WithNotFoundBehavior Forbid, WithELogger none]).notFoundBehavior =
        Forbid ∧
    NewEnforcer demo [WithNotFoundBehavior Forbid, WithELogger none] "next" "w"
        (some ("Basic", "good"), "") = none ∧
    enforcer.handler demo (some "next") "w" (some ("Basic", "good"), "")
        { e := NewEnforcer.e demo [WithNotFoundBehavior Forbid, WithELogger none],
          effects := [], panicked := false } =
      { e := NewEnforcer.e demo [WithNotFoundBehavior Forbid, WithELogger none],
        effects := [], panicked := true } :=
  ⟨rfl, rfl, rfl, rfl, rfl⟩

/-- C15, refuted as stated: on the gate built from `WithELogger(nil)` and a rule
for `Bearer`, a credential of the unregistered scheme `Basic` gets no
diagnostic event at all: the handler panics at the call of the nil resolver. -/
theorem C15_nil_resolver_counterexample :
    demo.FromContext (demo.requestContext (some ("Basic", "x"), "")) =
        some { Authorization := "Basic", Token := "x" } ∧
    (NewEnforcer.e demo [WithELogger none, WithRules "Bearer" ["bad"]]).rules "Basic" =
        none ∧
    NewEnforcer demo [WithELogger none, WithRules "Bearer" ["bad"]] "next" "w"
        (some ("Basic", "x"), "") = none ∧
    events (enforcer.handler demo (some "next") "w" (some ("Basic", "x"), "")
        { e := NewEnforcer.e demo [WithELogger none, WithRules "Bearer" ["bad"]],
          effects := [], panicked := false }).effects = [] :=
  ⟨rfl, rfl, rfl, rfl⟩

/-- C18, refuted as stated: on the gate built from `WithNotFoundBehavior(7)` and
`WithELogger(nil)`, a credential of an unregistered scheme is not answered with
403: the handler panics at the call of the nil resolver. -/
theorem C18_nil_resolver_counterexample :
    demo.FromContext (demo.requestContext (some ("Basic", "x"), "")) =
        some { Authorization := "Basic", Token := "x" } ∧
    (NewEnforcer.e demo [WithNotFoundBehavior 7, WithELogger none]).rules "Basic" = none ∧
    (NewEnforcer.e demo [WithNotFoundBehavior 7, WithELogger none]).notFoundBehavior = 7 ∧
    NewEnforcer demo [WithNotFoundBehavior 7, WithELogger none] "next" "w"
        (some ("Basic", "x"), "") = none ∧
    enforcer.handler demo (some "next") "w" (some ("Basic", "x"), "")
        { e := NewEnforcer.e demo [WithNotFoundBehavior 7, WithELogger none],
          effects := [], panicked := false } =
      { e := NewEnforcer.e demo [WithNotFoundBehavior 7, WithELogger none],
        effects := [], panicked := true } :=
  ⟨rfl, rfl, rfl, rfl, rfl⟩

/-- Options that are not `WithELogger` keep the resolver, and carry two
enforcers with the same table and fallback to two enforcers with the same table
and fallback. -/
theorem foldl_options_congr {S : Sig} (post : List (EOption S))
    (hpost : ∀ o ∈ post, (∃ b, o = WithNotFoundBehavior b) ∨ (∃ k v, o = WithRules k v))
    (e₁ e₂ : enforcer S) (hr : e₁.rules = e₂.rules)
    (hb : e₁.notFoundBehavior = e₂.notFoundBehavior) :
    (post.foldl (fun e o => o e) e₁).rules = (post.foldl (fun e o => o e) e₂).rules ∧
    (post.foldl (fun e o => o e) e₁).notFoundBehavior =
      (post.foldl (fun e o => o e) e₂).notFoundBehavior ∧
    (post.foldl (fun e o => o e) e₁).getLogger = e₁.getLogger := by
  induction post generalizing e₁ e₂ with
  | nil => exact ⟨hr, hb, rfl⟩
  | cons o os ih =>
    have hos : ∀ o ∈ os, (∃ b, o = WithNotFoundBehavior b) ∨ (∃ k v, o = WithRules k v) :=
      fun o' ho' => hpost o' (List.mem_cons_of_mem _ ho')
    rcases hpost o (List.mem_cons_self _ _) with ⟨b, rfl⟩ | ⟨k, v, rfl⟩
    · exact ih hos (WithNotFoundBehavior b e₁) (WithNotFoundBehavior b e₂) hr rfl
    · exact ih hos (WithRules k v e₁) (WithRules k v e₂) (by simp [WithRules, hr]) hb

/-- The enforcer built from an option list, seen from one of its options: the
options after it applied to that option applied to the enforcer built from the
options before it. -/
theorem NewEnforcer_e_append_cons {S : Sig} (c : Collaborators S)
    (pre post : List (EOption S)) (o : EOption S) :
    NewEnforcer.e c (pre ++ o :: post) =
      post.foldl (fun e o => o e) (o (NewEnforcer.e c pre)) := by
  simp [NewEnforcer.e, List.foldl_append]

/-- C16: in a gate built by `NewEnforcer` in which `WithELogger(getLogger)` is
the last `WithELogger` option, the handler emits at least one diagnostic event
and every event goes to the logger `getLogger` returns for the context of the
request, or, when it returns nil, to the logger `bascule.GetDefaultLoggerFunc`
returns for it; with any other resolver in that option the handler emits the
same key/values, evaluates the same chains, writes the same statuses and
bodies, makes the same downstream call and reaches the same decision. In a gate
built without a `WithELogger` option every event goes to the default logger.
In a gate in which `WithELogger(nil)` is the last `WithELogger` option the
handler panics before any event. -/
theorem C16_events_to_resolved_sink {S : Sig} (c : Collaborators S)
    (pre post options : List (EOption S)) (getLogger : S.Context → Option S.Logger)
    (next : S.Handler) (response : S.ResponseWriter) (request : S.Request)
    (hpost : ∀ o ∈ post, (∃ b, o = WithNotFoundBehavior b) ∨ (∃ k v, o = WithRules k v))
    (hoptions : ∀ o ∈ options,
      (∃ b, o = WithNotFoundBehavior b) ∨ (∃ k v, o = WithRules k v)) :
    (∃ t, NewEnforcer c (pre ++ WithELogger (some getLogger) :: post) next response request =
          some t ∧
      sinks t ≠ [] ∧
      (∀ l, getLogger (c.requestContext request) = some l → ∀ s ∈ sinks t, s = l) ∧
      (getLogger (c.requestContext request) = none →
        ∀ s ∈ sinks t, s = c.GetDefaultLoggerFunc (c.requestContext request)) ∧
      (∀ other : S.Context → Option S.Logger,
        ∃ u, NewEnforcer c (pre ++ WithELogger (some other) :: post) next response request =
            some u ∧
          events u = events t ∧ checks u = checks t ∧ statusCodes u = statusCodes t ∧
          bodies u = bodies t ∧ forwards u = forwards t ∧ decision u = decision t)) ∧
    (∃ t, NewEnforcer c options next response request = some t ∧
      sinks t ≠ [] ∧
      ∀ s ∈ sinks t, s = c.GetDefaultLoggerFunc (c.requestContext request)) ∧
    NewEnforcer c (pre ++ WithELogger none :: post) next response request = none := by
  have built : ∀ g : S.Context → Option S.Logger,
      (NewEnforcer.e c (pre ++ WithELogger (some g) :: post)).getLogger = some g ∧
      (NewEnforcer.e c (pre ++ WithELogger (some g) :: post)).rules =
        (NewEnforcer.e c (pre ++ WithELogger (some getLogger) :: post)).rules ∧
      (NewEnforcer.e c (pre ++ WithELogger (some g) :: post)).notFoundBehavior =
        (NewEnforcer.e c (pre ++ WithELogger (some getLogger) :: post)).notFoundBehavior := by
    intro g
    rw [NewEnforcer_e_append_cons, NewEnforcer_e_append_cons]
    obtain ⟨hr, hb, hg⟩ := foldl_options_congr post hpost
      (WithELogger (some g) (NewEnforcer.e c pre))
      (WithELogger (some getLogger) (NewEnforcer.e c pre)) rfl rfl
    exact ⟨hg, hr, hb⟩
  constructor
  · obtain ⟨t, ht, hne, hsome, hnone, hother⟩ := decorate_events_to_sink c
      (NewEnforcer.e c (pre ++ WithELogger (some getLogger) :: post)).rules
      (NewEnforcer.e c (pre ++ WithELogger (some getLogger) :: post)).notFoundBehavior
      getLogger next response request
    rw [← decorate_of_getLogger c _ getLogger (built getLogger).1] at ht
    refine ⟨t, ht, hne, hsome, hnone, fun other => ?_⟩
    obtain ⟨u, hu, rest⟩ := hother other
    refine ⟨u, ?_, rest⟩
    rw [NewEnforcer, decorate_of_getLogger c _ other (built other).1, (built other).2.1,
      (built other).2.2]
    exact hu
  · have hdefault : (NewEnforcer.e c options).getLogger =
        some (fun ctx => some (c.GetDefaultLoggerFunc ctx)) := by
      apply foldl_options_invariant
        (fun e => e.getLogger = some (fun ctx => some (c.GetDefaultLoggerFunc ctx))) options
      · intro o ho e he
        rcases hoptions o ho with ⟨b, rfl⟩ | ⟨k, v, rfl⟩
        · simpa [WithNotFoundBehavior] using he
        · simpa [WithRules] using he
      · rfl
    obtain ⟨t, ht, hne, hsome, -, -⟩ := decorate_events_to_sink c
      (NewEnforcer.e c options).rules (NewEnforcer.e c options).notFoundBehavior
      (fun ctx => some (c.GetDefaultLoggerFunc ctx)) next response request
    rw [← decorate_of_getLogger c _ _ hdefault] at ht
    refine ⟨⟨t, ht, hne, hsome _ rfl⟩, ?_⟩
    have hnil : (NewEnforcer.e c (pre ++ WithELogger none :: post)).getLogger = none := by
      rw [NewEnforcer_e_append_cons]
      exact (foldl_options_congr post hpost (WithELogger none (NewEnforcer.e c pre))
        (WithELogger none (NewEnforcer.e c pre)) rfl rfl).2.2
    simp [NewEnforcer, enforcer.decorate, hnil]

/-- C16 at a concrete input: `WithELogger(demoResolver)` followed by a rule; the
context of the request is marked `traced`, so the resolver returns `ctxlog` and
every event goes there. -/
theorem C16_events_to_resolved_sink_witness :
    (∀ o ∈ [(WithRules "Bearer" ["bad"] : EOption demoSig)],
      (∃ b, o = WithNotFoundBehavior b) ∨ (∃ k v, o = WithRules k v)) ∧
    demoResolver (demo.requestContext (some ("Bearer", "good"), "traced")) = some "ctxlog" ∧
    ∃ t, NewEnforcer demo ([] ++ WithELogger (some demoResolver) :: [WithRules "Bearer" ["bad"]])
          "next" "w" (some ("Bearer", "good"), "traced") = some t ∧
      sinks t ≠ [] ∧ ∀ s ∈ sinks t, s = "ctxlog" := by
  have hpost : ∀ o ∈ [(WithRules "Bearer" ["bad"] : EOption demoSig)],
      (∃ b, o = WithNotFoundBehavior b) ∨ (∃ k v, o = WithRules k v) :=
    fun o ho => Or.inr ⟨"Bearer", ["bad"], List.mem_singleton.mp ho⟩
  obtain ⟨⟨t, ht, hne, hsome, -, -⟩, -⟩ :=
    C16_events_to_resolved_sink demo [] [WithRules "Bearer" ["bad"]]
      [WithRules "Bearer" ["bad"]] demoResolver "next" "w"
      (some ("Bearer", "good"), "traced") hpost hpost
  exact ⟨hpost, rfl, t, ht, hne, hsome "ctxlog" rfl⟩

/-- C18, amended: in a gate built by `NewEnforcer` in which
`WithNotFoundBehavior(b)` is the last `WithNotFoundBehavior` option and whose
resolver is not nil, a request whose credential has a scheme that is not a key
of the table gets, when `b` is neither `Forbid` nor `Allow`, the single status
403, no body, no chain evaluated and no call of the downstream handler; and
over all values of `b` the downstream handler is called exactly when `b` is
`Allow`. -/
theorem C18_unknown_behavior_forbids {S : Sig} (c : Collaborators S)
    (pre post : List (EOption S)) (b : NotFoundBehavior)
    (getLogger : S.Context → Option S.Logger)
    (next : S.Handler) (response : S.ResponseWriter) (request : S.Request)
    (auth : Authentication S)
    (hpost : ∀ o ∈ post, (∃ k v, o = WithRules k v) ∨ (∃ g, o = WithELogger g))
    (hg : (NewEnforcer.e c (pre ++ WithNotFoundBehavior b :: post)).getLogger =
      some getLogger)
    (hauth : c.FromContext (c.requestContext request) = some auth)
    (hrules : (NewEnforcer.e c (pre ++ WithNotFoundBehavior b :: post)).rules
      auth.Authorization = none) :
    ∃ t, NewEnforcer c (pre ++ WithNotFoundBehavior b :: post) next response request =
          some t ∧
      (b ≠ Forbid → b ≠ Allow →
        statusCodes t = [403] ∧ bodies t = [] ∧ checks t = [] ∧ forwards t = []) ∧
      (forwards t ≠ [] ↔ b = Allow) := by
  have hb : (NewEnforcer.e c (pre ++ WithNotFoundBehavior b :: post)).notFoundBehavior = b := by
    unfold NewEnforcer.e
    rw [foldl_options_append, List.foldl_cons]
    apply foldl_options_invariant (fun e => e.notFoundBehavior = b) post
    · intro o ho e he
      rcases hpost o ho with ⟨k, v, rfl⟩ | ⟨g, rfl⟩
      · simpa [WithRules] using he
      · simpa [WithELogger] using he
    · rfl
  obtain ⟨t, ht, h⟩ := decorate_unregistered_fallback c
    (NewEnforcer.e c (pre ++ WithNotFoundBehavior b :: post)).rules
    (NewEnforcer.e c (pre ++ WithNotFoundBehavior b :: post)).notFoundBehavior
    getLogger next response request auth hauth hrules
  rw [← decorate_of_getLogger c _ getLogger hg] at ht
  rw [hb] at h
  exact ⟨t, ht, h⟩

/-- C18, amended, at a concrete input: the option `WithNotFoundBehavior(7)`
followed by a rule for `Bearer`, and a credential of the unregistered scheme
`Basic`. -/
theorem C18_unknown_behavior_forbids_witness :
    (∀ o ∈ [(WithRules "Bearer" ["bad"] : EOption demoSig)],
      (∃ k v, o = WithRules k v) ∨ (∃ g, o = WithELogger g)) ∧
    (NewEnforcer.e demo ([] ++ WithNotFoundBehavior 7 :: [WithRules "Bearer" ["bad"]])).getLogger =
        some (fun ctx => some (demo.GetDefaultLoggerFunc ctx)) ∧
    demo.FromContext (demo.requestContext (some ("Basic", "x"), "")) =
        some { Authorization := "Basic", Token := "x" } ∧
    (NewEnforcer.e demo ([] ++ WithNotFoundBehavior 7 :: [WithRules "Bearer" ["bad"]])).rules
        "Basic" = none ∧
    (7 : NotFoundBehavior) ≠ Forbid ∧ (7 : NotFoundBehavior) ≠ Allow ∧
    ∃ t, NewEnforcer demo ([] ++ WithNotFoundBehavior 7 :: [WithRules "Bearer" ["bad"]])
          "next" "w" (some ("Basic", "x"), "") = some t ∧
      statusCodes t = [403] ∧ bodies t = [] ∧ checks t = [] ∧ forwards t = [] := by
  have hpost : ∀ o ∈ [(WithRules "Bearer" ["bad"] : EOption demoSig)],
      (∃ k v, o = WithRules k v) ∨ (∃ g, o = WithELogger g) :=
    fun o ho => Or.inl ⟨"Bearer", ["bad"], List.mem_singleton.mp ho⟩
  obtain ⟨t, ht, h, -⟩ :=
    C18_unknown_behavior_forbids demo [] [WithRules "Bearer" ["bad"]] 7
      (fun ctx => some (demo.GetDefaultLoggerFunc ctx)) "next" "w" (some ("Basic", "x"), "")
      { Authorization := "Basic", Token := "x" } hpost rfl rfl rfl
  exact ⟨hpost, rfl, rfl, rfl, by decide, by decide, t, ht, h (by decide) (by decide)⟩

end basculehttp
